import Mathlib

/-!
Verification development for `monitor_stock.py` (stock_monitor): a shallow
embedding of its scheduling, classification, notification, orchestration and
state-persistence core, followed by theorems settling the specification
claims about those functions.

Modelling conventions:
* Python `datetime` instants are modelled as an integer count of seconds on an
  idealized linear calendar (86400 seconds per day); `date()`, `hour`, and
  `minute` are derived by floor division, and `datetime` subtraction is
  integer subtraction of the counts.
* Python strings used for content matching are modelled as `List Char`;
  `str.lower()` is modelled by `Char.toLower` (faithful on the ASCII range).
* The external fetch collaborator is a parameter returning `Except Unit` of
  the page content; the external mailer's success flag is a `Bool` parameter
  (the source discards `send_email`'s return value).
* Persisted JSON state is modelled by an explicit `Json` tree; the byte-level
  file is abstracted to the parsed value a reader observes, with
  `json.dumps(..., sort_keys=True)` modelled as recursive key sorting.
-/

/-- The classification result strings `"in_stock"`, `"out_of_stock"`,
`"unknown"` used by the script. -/
inductive StockState where
  | in_stock : StockState
  | out_of_stock : StockState
  | unknown : StockState
deriving DecidableEq, Repr

/-- A `datetime` instant, as seconds on an idealized linear calendar. -/
structure DateTime where
  seconds : Int
deriving DecidableEq, Repr

/-- `datetime.date()`, as the day index (floor of seconds by 86400). -/
def DateTime.date (t : DateTime) : Int := t.seconds.fdiv 86400

/-- Second within the day, in `[0, 86400)`. -/
def DateTime.secondOfDay (t : DateTime) : Int := t.seconds.emod 86400

/-- `datetime.hour`. -/
def DateTime.hour (t : DateTime) : Int := t.secondOfDay / 3600

/-- `datetime.minute`. -/
def DateTime.minute (t : DateTime) : Int := (t.secondOfDay % 3600) / 60

/-- A validated schedule, as produced by `parse_schedule`: either
`{"mode": "hourly", "interval_seconds": n}` or
`{"mode": "daily", "minute_of_day": m}`. -/
inductive Schedule where
  | hourly (interval_seconds : Int) : Schedule
  | daily (minute_of_day : Int) : Schedule
deriving DecidableEq, Repr

/-- A validated target, as produced by `load_monitor_config`. -/
structure Target where
  id : String
  name : String
  url : String
  out_of_stock_terms : List (List Char)
  schedule : Schedule
  emails_on_out_of_stock : List String
  emails_on_in_stock : List String
  notify_on_same_state : Bool
deriving DecidableEq

/-- Per-target persisted state dictionary; `none` models an absent key
(or, for `last_check_at`, a value `parse_iso_datetime` rejects). -/
structure TargetState where
  last_state : Option StockState
  last_marker : Option (List Char)
  last_check_at : Option DateTime
deriving DecidableEq

/-- The empty per-target state dictionary `{}`. -/
def emptyTargetState : TargetState :=
  { last_state := none, last_marker := none, last_check_at := none }

/-- `needle` is a leading segment of the second list (character-wise). -/
def listStartsWith : List Char → List Char → Bool
  | [], _ => true
  | _ :: _, [] => false
  | a :: as, b :: bs => a == b && listStartsWith as bs

/-- Python's substring test `needle in haystack` on character lists. -/
def containsSub (needle : List Char) : List Char → Bool
  | [] => needle.isEmpty
  | c :: rest => listStartsWith needle (c :: rest) || containsSub needle rest

/-- Case-insensitive occurrence test: `marker.lower() in html.lower()`. -/
def occursIn (marker html : List Char) : Bool :=
  containsSub (marker.map Char.toLower) (html.map Char.toLower)

/-- `detect_stock_state(html, out_of_stock_terms)`: lowercase the content
once, return the first configured term (in list order) found in it, else
`("in_stock", "")`. -/
def detect_stock_state (html : List Char) : List (List Char) → StockState × List Char
  | [] => (StockState.in_stock, [])
  | marker :: rest =>
    if occursIn marker html then (StockState.out_of_stock, marker)
    else detect_stock_state html rest

/-- `is_target_due(target, target_state, now)`. -/
def is_target_due (target : Target) (target_state : TargetState) (now : DateTime) : Bool :=
  match target.schedule with
  | Schedule.hourly interval_seconds =>
    match target_state.last_check_at with
    | none => true
    | some last_check => decide (now.seconds - last_check.seconds ≥ interval_seconds)
  | Schedule.daily threshold =>
    let minute_of_day := now.hour * 60 + now.minute
    if minute_of_day < threshold then false
    else
      match target_state.last_check_at with
      | none => true
      | some last_check => decide (last_check.date < now.date)

/-- Observable outcome of one `evaluate_target` call: the mutated per-target
state, the recipient list `send_email` was invoked with (if it was), and the
boolean return value. -/
structure EvalOutcome where
  newState : TargetState
  mailRecipients : Option (List String)
  result : Bool
deriving DecidableEq

/-- `evaluate_target(target, target_state, now)`.

`fetched` is the outcome of the external `fetch_html(url)` call
(`Except.error` models a raised exception); `sendOk` is the boolean the
external `send_email` would return — the source discards it, which the
definition mirrors by binding and ignoring it. -/
def evaluate_target (target : Target) (target_state : TargetState) (now : DateTime)
    (fetched : Except Unit (List Char)) (sendOk : Bool) : EvalOutcome :=
  let previous_state := target_state.last_state
  match fetched with
  | Except.error _ =>
    { newState := { target_state with
        last_state := some StockState.unknown,
        last_check_at := some now },
      mailRecipients := none,
      result := false }
  | Except.ok html =>
    let detected := detect_stock_state html target.out_of_stock_terms
    let current_state := detected.1
    let marker := detected.2
    let recipients :=
      if current_state = StockState.out_of_stock then target.emails_on_out_of_stock
      else target.emails_on_in_stock
    let should_notify :=
      target.notify_on_same_state || !(previous_state == some current_state)
    let mail :=
      if should_notify && !recipients.isEmpty then some recipients else none
    let _send_result := if mail.isSome then sendOk else true
    { newState := { target_state with
        last_state := some current_state,
        last_marker := some marker,
        last_check_at := some now },
      mailRecipients := mail,
      result := true }

/-- Association-list read of the mutable `state["targets"]` dictionary. -/
def lookupTS : List (String × TargetState) → String → Option TargetState
  | [], _ => none
  | (k, v) :: rest, key => if k = key then some v else lookupTS rest key

/-- Dictionary item assignment `targets_state[key] = v` (replace in place, or
append in insertion order when absent). -/
def setTS : List (String × TargetState) → String → TargetState → List (String × TargetState)
  | [], key, v => [(key, v)]
  | (k, w) :: rest, key, v =>
    if k = key then (k, v) :: rest else (k, w) :: setTS rest key v

/-- `targets_state.setdefault(target_id, {})`: insert an empty per-target
dict when the key is absent. -/
def setdefaultTS (m : List (String × TargetState)) (key : String) :
    List (String × TargetState) :=
  match lookupTS m key with
  | some _ => m
  | none => m ++ [(key, emptyTargetState)]

/-- In-memory accumulator of one cycle: the `targets` dictionary, and the
log of `send_email` invocations as (target id, recipients) pairs. -/
structure CycleAcc where
  targets : List (String × TargetState)
  mails : List (String × List String)
deriving DecidableEq

/-- The body of `run_cycle`'s per-target loop: `setdefault` the state entry,
gate on the schedule unless `force_run`, and run `evaluate_target`. -/
def process_target (now : DateTime) (fetch : String → Except Unit (List Char))
    (sendOk : Bool) (force_run : Bool) (acc : CycleAcc) (target : Target) : CycleAcc :=
  let m := setdefaultTS acc.targets target.id
  let target_state := (lookupTS m target.id).getD emptyTargetState
  if force_run || is_target_due target target_state now then
    let out := evaluate_target target target_state now (fetch target.url) sendOk
    { targets := setTS m target.id out.newState,
      mails := acc.mails ++
        (match out.mailRecipients with
         | some r => [(target.id, r)]
         | none => []) }
  else
    { acc with targets := m }

/-- The typed view of the persisted monitor state used by the orchestrator. -/
structure MonitorStateT where
  targets : List (String × TargetState)
  updated_at : Option DateTime
deriving DecidableEq

/-- Observable outcome of `run_cycle`: the process exit code, the state
written by `save_state` (`none` when no write happened), and the mail log. -/
structure CycleResult where
  exitCode : Nat
  saved : Option MonitorStateT
  mails : List (String × List String)
deriving DecidableEq

/-- `run_cycle(force_run)`.

`config` is the outcome of `load_monitor_config` (`Except.error` models a
raised exception, caught and turned into exit code 2 before the state file is
touched); `state0` is the state `load_state` would produce; `fetch` and
`sendOk` model the external collaborators. -/
def run_cycle (config : Except Unit (List Target)) (state0 : MonitorStateT)
    (fetch : String → Except Unit (List Char)) (sendOk : Bool)
    (now : DateTime) (force_run : Bool) : CycleResult :=
  match config with
  | Except.error _ => { exitCode := 2, saved := none, mails := [] }
  | Except.ok targets =>
    let acc := targets.foldl (process_target now fetch sendOk force_run)
      { targets := state0.targets, mails := [] }
    { exitCode := 0,
      saved := some { targets := acc.targets, updated_at := some now },
      mails := acc.mails }

/-- JSON values, as handled by `json.load` / `json.dumps`; objects are
key-value lists in insertion order. -/
inductive Json where
  | null : Json
  | bool (b : Bool) : Json
  | num (n : Int) : Json
  | str (s : String) : Json
  | arr (elems : List Json) : Json
  | obj (fields : List (String × Json)) : Json

/-- Dictionary read `d.get(key)` on a JSON object's field list. -/
def lookupJ : List (String × Json) → String → Option Json
  | [], _ => none
  | (k, v) :: rest, key => if k = key then some v else lookupJ rest key

/-- Dictionary item assignment `d[key] = v` on a JSON object's field list. -/
def setJ : List (String × Json) → String → Json → List (String × Json)
  | [], key, v => [(key, v)]
  | (k, w) :: rest, key, v =>
    if k = key then (k, v) :: rest else (k, w) :: setJ rest key v

/-- Key order used by `json.dumps(..., sort_keys=True)`. -/
def keyLE (p q : String × Json) : Prop := p.1 ≤ q.1

instance : DecidableRel keyLE := fun p q => inferInstanceAs (Decidable (p.1 ≤ q.1))

instance : IsTotal (String × Json) keyLE := ⟨fun p q => le_total p.1 q.1⟩

instance : IsTrans (String × Json) keyLE := ⟨fun _ _ _ h h' => le_trans h h'⟩

instance : IsRefl (String × Json) keyLE := ⟨fun p => le_refl p.1⟩

/-- Recursive key sorting: the reordering `json.dumps(..., sort_keys=True)`
applies to every object before writing, so a subsequent `json.load` parses
exactly this value. -/
def sortKeys : Json → Json
  | Json.null => Json.null
  | Json.bool b => Json.bool b
  | Json.num n => Json.num n
  | Json.str s => Json.str s
  | Json.arr elems => Json.arr (elems.attach.map fun e => sortKeys e.1)
  | Json.obj fields =>
    Json.obj (List.insertionSort keyLE (fields.attach.map fun p => (p.1.1, sortKeys p.1.2)))
decreasing_by
  all_goals first
  | (have h := List.sizeOf_lt_of_mem e.2
     simp only [Json.arr.sizeOf_spec]
     omega)
  | (have h := List.sizeOf_lt_of_mem p.2
     have h2 : sizeOf p.1.2 < sizeOf p.1 := by
       obtain ⟨a, b⟩ := p.1
       simp
     simp only [Json.obj.sizeOf_spec]
     omega)

/-- Equality of JSON values as Python's `==` sees them after a round trip:
dictionaries compare as key-value mappings, insensitive to field order, which
key canonicalization makes literal. -/
def pyJsonEq (a b : Json) : Prop := sortKeys a = sortKeys b

/-- What the state file holds from a reader's point of view: absent,
unparseable, or a parsed JSON value. -/
inductive FileContent where
  | missing : FileContent
  | malformed : FileContent
  | parsed (j : Json) : FileContent

/-- The fresh empty state `{"targets": {}}`. -/
def freshState : Json := Json.obj [("targets", Json.obj [])]

/-- `load_state(path)`: missing file or unreadable content yields a fresh
empty state; a non-dict top level yields a fresh empty state; a dict without
a dict-valued `"targets"` gets `state["targets"] = {}`; otherwise the parsed
state is returned unchanged. -/
def load_state : FileContent → Json
  | FileContent.missing => freshState
  | FileContent.malformed => freshState
  | FileContent.parsed j =>
    match j with
    | Json.obj fields =>
      match lookupJ fields "targets" with
      | some (Json.obj _) => Json.obj fields
      | _ => Json.obj (setJ fields "targets" (Json.obj []))
    | _ => freshState

/-- `save_state(path, state)`: the value a subsequent `json.load` of the
written file observes — the state with every object's keys sorted (the file
itself is produced by `json.dumps(state, indent=2, sort_keys=True)` into a
temporary file, then atomically moved over the target path). -/
def save_state (state : Json) : Json := sortKeys state

/-- Recipient selection by current state (`evaluate_target`, the branch
choosing `emails_on_out_of_stock` versus `emails_on_in_stock`). -/
def selected_recipients (target : Target) (current_state : StockState) : List String :=
  if current_state = StockState.out_of_stock then target.emails_on_out_of_stock
  else target.emails_on_in_stock

/-- `isinstance(j, dict)`. -/
def Json.isObj : Json → Bool
  | Json.obj _ => true
  | _ => false

/-- Concrete daily-schedule fixture used by witnesses. -/
def sampleDailyTarget : Target :=
  { id := "t1", name := "page une", url := "http://example.com/a",
    out_of_stock_terms := ["rupture de stock".toList],
    schedule := Schedule.daily 540,
    emails_on_out_of_stock := ["a@example.com"],
    emails_on_in_stock := [],
    notify_on_same_state := false }

/-- Concrete hourly-schedule fixture used by witnesses. -/
def sampleHourlyTarget : Target :=
  { id := "t2", name := "page deux", url := "http://example.com/b",
    out_of_stock_terms := ["sold out".toList],
    schedule := Schedule.hourly 3600,
    emails_on_out_of_stock := ["a@example.com"],
    emails_on_in_stock := ["b@example.com"],
    notify_on_same_state := false }

/-- Concrete persisted-state fixture used by witnesses. -/
def sampleStateJson : Json :=
  Json.obj [("updated_at", Json.str "2024-01-01T00:00:00"),
            ("targets", Json.obj [("t1", Json.obj [("last_state", Json.str "in_stock")])])]

/-! ## Helper lemmas -/

theorem sortKeys_arr (elems : List Json) :
    sortKeys (Json.arr elems) = Json.arr (elems.map sortKeys) := by
  rw [sortKeys]
  congr 1
  simp [List.map_attach]

theorem sortKeys_obj (fields : List (String × Json)) :
    sortKeys (Json.obj fields) =
      Json.obj (List.insertionSort keyLE (fields.map fun p => (p.1, sortKeys p.2))) := by
  rw [sortKeys]
  congr 2
  simp [List.map_attach]

theorem sortKeys_idem (j : Json) : sortKeys (sortKeys j) = sortKeys j := by
  induction j using sortKeys.induct with
  | case1 => simp [sortKeys]
  | case2 b => simp [sortKeys]
  | case3 n => simp [sortKeys]
  | case4 s => simp [sortKeys]
  | case5 elems ih =>
    rw [sortKeys_arr, sortKeys_arr, List.map_map]
    congr 1
    have h : ∀ x ∈ elems, (sortKeys ∘ sortKeys) x = sortKeys x := fun x hx => ih ⟨x, hx⟩
    rw [List.map_congr_left h]
  | case6 fields ih =>
    rw [sortKeys_obj, sortKeys_obj]
    congr 1
    have hmap : (List.insertionSort keyLE (fields.map fun p => (p.1, sortKeys p.2))).map
        (fun p => (p.1, sortKeys p.2)) =
        List.insertionSort keyLE (fields.map fun p => (p.1, sortKeys p.2)) := by
      have h : ∀ q ∈ List.insertionSort keyLE (fields.map fun p => (p.1, sortKeys p.2)),
          (fun p => (p.1, sortKeys p.2)) q = id q := by
        intro q hq
        have hq' : q ∈ fields.map fun p => (p.1, sortKeys p.2) :=
          (List.perm_insertionSort keyLE _).mem_iff.mp hq
        obtain ⟨p, hp, rfl⟩ := List.mem_map.mp hq'
        simp [ih ⟨p, hp⟩]
      rw [List.map_congr_left h, List.map_id]
    rw [hmap]
    exact List.Sorted.insertionSort_eq (List.sorted_insertionSort keyLE _)

theorem lookupJ_map_sortVal (fields : List (String × Json)) (key : String) :
    lookupJ (fields.map fun p => (p.1, sortKeys p.2)) key =
      (lookupJ fields key).map sortKeys := by
  induction fields with
  | nil => rfl
  | cons p rest ih =>
    obtain ⟨k, v⟩ := p
    by_cases hk : k = key <;> simp [lookupJ, hk, ih]

theorem lookupJ_eq_none_iff (l : List (String × Json)) (key : String) :
    lookupJ l key = none ↔ key ∉ l.map Prod.fst := by
  induction l with
  | nil => simp [lookupJ]
  | cons p rest ih =>
    obtain ⟨k, v⟩ := p
    simp only [lookupJ, List.map_cons, List.mem_cons, not_or]
    by_cases hk : k = key
    · subst hk; simp
    · have hk' : ¬key = k := fun h => hk h.symm
      simp [hk, hk', ih]

theorem mem_of_lookupJ {l : List (String × Json)} {key : String} {v : Json}
    (h : lookupJ l key = some v) : (key, v) ∈ l := by
  induction l with
  | nil => simp [lookupJ] at h
  | cons p rest ih =>
    obtain ⟨k, w⟩ := p
    by_cases hk : k = key
    · simp [lookupJ, hk] at h
      simp [hk, h]
    · simp [lookupJ, hk] at h
      exact List.mem_cons_of_mem _ (ih h)

theorem lookupJ_of_mem_nodup {l : List (String × Json)} {key : String} {v : Json}
    (hn : (l.map Prod.fst).Nodup) (h : (key, v) ∈ l) : lookupJ l key = some v := by
  induction l with
  | nil => simp at h
  | cons p rest ih =>
    obtain ⟨k, w⟩ := p
    simp only [List.map_cons, List.nodup_cons] at hn
    rcases List.mem_cons.mp h with h1 | h1
    · obtain ⟨rfl, rfl⟩ := Prod.mk.injEq .. ▸ h1
      simp [lookupJ]
    · have hkey : k ≠ key := by
        rintro rfl
        exact hn.1 (List.mem_map.mpr ⟨(k, v), h1, rfl⟩)
      simp [lookupJ, hkey]
      exact ih hn.2 h1

theorem lookupJ_perm {l₁ l₂ : List (String × Json)} (hp : l₁.Perm l₂)
    (hn : (l₁.map Prod.fst).Nodup) (key : String) :
    lookupJ l₁ key = lookupJ l₂ key := by
  cases h1 : lookupJ l₁ key with
  | none =>
    have := (lookupJ_eq_none_iff l₁ key).mp h1
    have h2 : key ∉ l₂.map Prod.fst := fun hc =>
      this ((hp.map Prod.fst).mem_iff.mpr hc)
    exact ((lookupJ_eq_none_iff l₂ key).mpr h2).symm
  | some v =>
    have hmem : (key, v) ∈ l₂ := hp.mem_iff.mp (mem_of_lookupJ h1)
    have hn2 : (l₂.map Prod.fst).Nodup := (hp.map Prod.fst).nodup_iff.mp hn
    exact (lookupJ_of_mem_nodup hn2 hmem).symm

theorem lookupTS_setTS_self (m : List (String × TargetState)) (key : String)
    (v : TargetState) : lookupTS (setTS m key v) key = some v := by
  induction m with
  | nil => simp [setTS, lookupTS]
  | cons p rest ih =>
    obtain ⟨k, w⟩ := p
    by_cases hk : k = key <;> simp [setTS, lookupTS, hk, ih]

theorem detect_stock_state_eq_find (html : List Char) (terms : List (List Char)) :
    detect_stock_state html terms =
      match terms.find? (fun m => occursIn m html) with
      | some m => (StockState.out_of_stock, m)
      | none => (StockState.in_stock, []) := by
  induction terms with
  | nil => rfl
  | cons m rest ih =>
    by_cases h : occursIn m html <;>
      simp [detect_stock_state, List.find?_cons, h, ih]

/-! ## Claim theorems -/

/-- C1: For a `Daily{minute_of_day}` schedule, `is_target_due` is false while
`now`'s minute-of-day is strictly below the threshold; once the threshold is
met it is true when `last_check_at` is absent, and otherwise true exactly when
the calendar date of `last_check_at` is strictly earlier than `now`'s date. -/
theorem daily_due_characterization
    (threshold : Int) (target : Target) (ts : TargetState) (now : DateTime)
    (hs : target.schedule = Schedule.daily threshold) :
    (now.hour * 60 + now.minute < threshold → is_target_due target ts now = false)
    ∧ (threshold ≤ now.hour * 60 + now.minute →
        (ts.last_check_at = none → is_target_due target ts now = true)
        ∧ ∀ last, ts.last_check_at = some last →
            (is_target_due target ts now = true ↔ last.date < now.date)) := by
  refine ⟨fun h => ?_, fun h => ⟨fun hnone => ?_, fun last hlast => ?_⟩⟩
  · simp [is_target_due, hs, h]
  · simp [is_target_due, hs, hnone, not_lt.mpr h]
  · simp [is_target_due, hs, hlast, not_lt.mpr h]

theorem daily_due_characterization_witness :
    sampleDailyTarget.schedule = Schedule.daily 540 ∧
    emptyTargetState.last_check_at = none ∧
    is_target_due sampleDailyTarget emptyTargetState ⟨32700⟩ = true :=
  ⟨rfl, rfl,
    ((daily_due_characterization 540 sampleDailyTarget emptyTargetState ⟨32700⟩
      rfl).2 (by decide)).1 rfl⟩

/-- C2: For an `Hourly{interval_seconds}` schedule with positive interval,
`is_target_due` is true exactly when `last_check_at` is absent or at least
`interval_seconds` have elapsed since it (inclusive boundary). -/
theorem hourly_due_characterization
    (interval : Int) (target : Target) (ts : TargetState) (now : DateTime)
    (hs : target.schedule = Schedule.hourly interval) (_hpos : 0 < interval) :
    is_target_due target ts now = true ↔
      (ts.last_check_at = none ∨
        ∃ last, ts.last_check_at = some last ∧
          interval ≤ now.seconds - last.seconds) := by
  cases h : ts.last_check_at with
  | none => simp [is_target_due, hs, h]
  | some last => simp [is_target_due, hs, h, ge_iff_le]

theorem hourly_due_characterization_witness :
    sampleHourlyTarget.schedule = Schedule.hourly 3600 ∧ (0 : Int) < 3600 ∧
    is_target_due sampleHourlyTarget
      { emptyTargetState with last_check_at := some ⟨0⟩ } ⟨3600⟩ = true :=
  ⟨rfl, by decide,
    (hourly_due_characterization 3600 sampleHourlyTarget
      { emptyTargetState with last_check_at := some ⟨0⟩ } ⟨3600⟩ rfl
      (by decide)).mpr (Or.inr ⟨⟨0⟩, rfl, by decide⟩)⟩

/-- C3: For a non-empty ordered term list, `detect_stock_state` returns
`(out_of_stock, t)` for the first term `t` in list order whose lowercase form
occurs in the lowercased content (marker in its configured casing), and
`(in_stock, "")` when no term occurs. -/
theorem detect_stock_state_first_in_list_order
    (html : List Char) (terms : List (List Char)) (_hne : terms ≠ []) :
    detect_stock_state html terms =
      match terms.find? (fun m => occursIn m html) with
      | some m => (StockState.out_of_stock, m)
      | none => (StockState.in_stock, []) :=
  detect_stock_state_eq_find html terms

theorem detect_stock_state_first_in_list_order_witness :
    (["rupture de stock".toList] : List (List Char)) ≠ [] ∧
    detect_stock_state "<p>Rupture De Stock</p>".toList ["rupture de stock".toList] =
      (StockState.out_of_stock, "rupture de stock".toList) :=
  ⟨by decide,
    (detect_stock_state_first_in_list_order "<p>Rupture De Stock</p>".toList
      ["rupture de stock".toList] (by decide)).trans (by decide)⟩

/-- C4: On a successful check, a mail send is attempted exactly when the
notification policy fires (`notify_on_same_state`, or a state change, an
absent previous state always counting as a change) and the recipient list
selected by the current state is non-empty; with no recipients the send is
suppressed rather than raised. -/
theorem mail_attempt_policy (target : Target) (ts : TargetState) (now : DateTime)
    (html : List Char) (sendOk : Bool) :
    (evaluate_target target ts now (Except.ok html) sendOk).mailRecipients =
      (if (target.notify_on_same_state = true ∨
            ts.last_state ≠ some (detect_stock_state html target.out_of_stock_terms).1)
          ∧ selected_recipients target (detect_stock_state html target.out_of_stock_terms).1 ≠ []
       then some (selected_recipients target (detect_stock_state html target.out_of_stock_terms).1)
       else none) := by
  simp only [evaluate_target, selected_recipients]
  split_ifs with h1 h2 <;>
    simp_all [List.isEmpty_iff, Bool.or_eq_true, Bool.not_eq_eq_eq_not, beq_iff_eq]

/-- C6: On a successful check the per-target state is always overwritten with
the freshly classified values, and the whole outcome of `evaluate_target` is
independent of whether the mail delivery succeeds. -/
theorem classified_check_always_updates_state (target : Target) (ts : TargetState)
    (now : DateTime) (html : List Char) (sendOk : Bool) :
    (evaluate_target target ts now (Except.ok html) sendOk).newState =
      { ts with
        last_state := some (detect_stock_state html target.out_of_stock_terms).1,
        last_marker := some (detect_stock_state html target.out_of_stock_terms).2,
        last_check_at := some now }
    ∧ ∀ sendOk' : Bool,
        evaluate_target target ts now (Except.ok html) sendOk =
          evaluate_target target ts now (Except.ok html) sendOk' :=
  ⟨rfl, fun _ => rfl⟩

/-- C10: When the fetch fails, `last_marker` is left untouched while
`last_state` becomes `unknown`, so a stale marker persists next to the
unknown state. -/
theorem fetch_failure_preserves_marker (target : Target) (ts : TargetState)
    (now : DateTime) (sendOk : Bool) (err : Unit) :
    (evaluate_target target ts now (Except.error err) sendOk).newState.last_marker =
      ts.last_marker
    ∧ (evaluate_target target ts now (Except.error err) sendOk).newState.last_state =
      some StockState.unknown :=
  ⟨rfl, rfl⟩

/-- C5: A failed fetch for one target records `last_state = unknown` and
`last_check_at = now` for it, attempts no mail, lets the cycle fold over the
remaining targets, and leaves the exit code at 0. -/
theorem fetch_failure_isolated (l₁ l₂ : List Target) (t : Target)
    (st0 : MonitorStateT) (fetch : String → Except Unit (List Char))
    (sendOk : Bool) (now : DateTime) (force_run : Bool)
    (hf : fetch t.url = Except.error ()) :
    ∀ acc₁ m ts accT,
      acc₁ = l₁.foldl (process_target now fetch sendOk force_run)
        { targets := st0.targets, mails := [] } →
      m = setdefaultTS acc₁.targets t.id →
      ts = (lookupTS m t.id).getD emptyTargetState →
      (force_run || is_target_due t ts now) = true →
      accT = process_target now fetch sendOk force_run acc₁ t →
      run_cycle (Except.ok (l₁ ++ t :: l₂)) st0 fetch sendOk now force_run =
        { exitCode := 0,
          saved := some
            { targets := (l₂.foldl (process_target now fetch sendOk force_run) accT).targets,
              updated_at := some now },
          mails := (l₂.foldl (process_target now fetch sendOk force_run) accT).mails }
      ∧ accT.mails = acc₁.mails
      ∧ lookupTS accT.targets t.id =
          some { ts with
            last_state := some StockState.unknown,
            last_check_at := some now } := by
  intro acc₁ m ts accT h1 h2 h3 hdue h4
  subst h4 h3 h2 h1
  refine ⟨?_, ?_, ?_⟩
  · simp [run_cycle, List.foldl_append]
  · simp [process_target, hdue, hf, evaluate_target]
  · simp [process_target, hdue, hf, evaluate_target, lookupTS_setTS_self]

theorem fetch_failure_isolated_witness :
    run_cycle (Except.ok [sampleHourlyTarget]) ⟨[], none⟩
      (fun _ => Except.error ()) true ⟨0⟩ true =
      { exitCode := 0,
        saved := some
          { targets := [("t2",
              { last_state := some StockState.unknown,
                last_marker := none,
                last_check_at := some ⟨0⟩ })],
            updated_at := some ⟨0⟩ },
        mails := [] } :=
  ((fetch_failure_isolated [] [] sampleHourlyTarget ⟨[], none⟩
    (fun _ => Except.error ()) true ⟨0⟩ true rfl _ _ _ _
    rfl rfl rfl rfl rfl).1).trans (by decide)

/-- C7: A configuration-load failure yields exit code 2 with no state file
write (and a result independent of the persisted state); with a loadable
configuration the cycle always finishes with exit code 0, also when no
target is due. -/
theorem config_error_exit_and_no_state_io :
    (∀ (err : Unit) (st0 : MonitorStateT) fetch sendOk now force_run,
      run_cycle (Except.error err) st0 fetch sendOk now force_run =
        { exitCode := 2, saved := none, mails := [] })
    ∧ (∀ (targets : List Target) (st0 : MonitorStateT) fetch sendOk now force_run,
        (run_cycle (Except.ok targets) st0 fetch sendOk now force_run).exitCode = 0) :=
  ⟨fun _ _ _ _ _ _ => rfl, fun _ _ _ _ _ _ => rfl⟩

/-- C8: `load_state` fails soft: a missing file, unreadable content, or a
non-object top level all yield the fresh empty state, whose `targets` mapping
is the empty object; no case raises. -/
theorem load_state_fails_soft :
    load_state FileContent.missing = freshState
    ∧ load_state FileContent.malformed = freshState
    ∧ (∀ j : Json, j.isObj = false → load_state (FileContent.parsed j) = freshState)
    ∧ freshState = Json.obj [("targets", Json.obj [])] := by
  refine ⟨rfl, rfl, fun j hj => ?_, rfl⟩
  cases j <;> simp_all [Json.isObj, load_state]

theorem load_state_fails_soft_witness :
    (Json.num 3).isObj = false ∧
    load_state (FileContent.parsed (Json.num 3)) = freshState :=
  ⟨rfl, load_state_fails_soft.2.2.1 (Json.num 3) rfl⟩

/-- C9: for a well-formed state (a JSON object without duplicate keys whose
`targets` field is an object), `save_state` followed by `load_state` yields a
state equal to the original as a Python value (dictionaries compared as
mappings, insensitive to field order). -/
theorem save_load_round_trip (fields tfields : List (String × Json))
    (hn : (fields.map Prod.fst).Nodup)
    (ht : lookupJ fields "targets" = some (Json.obj tfields)) :
    pyJsonEq (load_state (FileContent.parsed (save_state (Json.obj fields))))
      (Json.obj fields) := by
  unfold pyJsonEq save_state
  have hsk : sortKeys (Json.obj fields) =
      Json.obj (List.insertionSort keyLE (fields.map fun p => (p.1, sortKeys p.2))) :=
    sortKeys_obj fields
  have hperm : (List.insertionSort keyLE
      (fields.map fun p => (p.1, sortKeys p.2))).Perm
      (fields.map fun p => (p.1, sortKeys p.2)) := List.perm_insertionSort _ _
  have hnm : ((fields.map fun p => (p.1, sortKeys p.2)).map Prod.fst).Nodup := by
    rw [List.map_map]
    exact hn
  have hns : ((List.insertionSort keyLE
      (fields.map fun p => (p.1, sortKeys p.2))).map Prod.fst).Nodup :=
    (hperm.map Prod.fst).nodup_iff.mpr hnm
  have hlook : lookupJ (List.insertionSort keyLE
      (fields.map fun p => (p.1, sortKeys p.2))) "targets" =
      some (Json.obj (List.insertionSort keyLE (tfields.map fun p => (p.1, sortKeys p.2)))) := by
    rw [lookupJ_perm hperm hns "targets", lookupJ_map_sortVal, ht]
    simp [sortKeys_obj]
  rw [hsk]
  simp only [load_state, hlook]
  rw [← hsk, sortKeys_idem]

theorem save_load_round_trip_witness :
    pyJsonEq (load_state (FileContent.parsed (save_state sampleStateJson))) sampleStateJson :=
  save_load_round_trip
    [("updated_at", Json.str "2024-01-01T00:00:00"),
     ("targets", Json.obj [("t1", Json.obj [("last_state", Json.str "in_stock")])])]
    [("t1", Json.obj [("last_state", Json.str "in_stock")])]
    (by decide) rfl
